import Mathlib

/-!
Verification of the warehouse archetype-ECS core against its specification.

The development shallowly embeds the two generations of the package found in
the repository:

* the "bool-lock" variant (storage with a single `locked` flag, the
  three-phase `opQueue` of operation_queue parts, typed errors such as
  `ComponentExistsError`), and
* the "bit-lock" variant (storage with a `mask.Mask256` lock set, the
  single `entityOperationsQueue`, `NewOrExistingArchetype`, entity handles
  carrying a component list).

Components are identified by natural numbers (the Go code identifies them by
runtime type; all that matters here is identity).  Component masks are
natural numbers used as bitsets, mirroring the external
github.com/TheBitDrifter/mask package (a fixed-width 256-bit bitset, per the
spec's Schema bound): Mark sets a bit, ContainsAll / ContainsAny /
ContainsNone are the containment tests used by the query evaluator.
-/

namespace Warehouse

/-! ## Component masks (model of the external mask package, 256-bit bitset) -/

/-- Upper bound of the fixed-width bitset: the spec's Schema bound is 256. -/
def maskWidth : Nat := 256

/-- Mark sets the given bit of the mask (mask.Mask.Mark). -/
def mark (m bit : Nat) : Nat := m ||| (1 <<< bit)

/-- Unmark clears the given bit of the mask (mask.Mask.Unmark). -/
def unmark (m bit : Nat) : Nat := if m.testBit bit then m - (1 <<< bit) else m

/-- ContainsAll: every bit set in other is set in m. -/
def containsAll (m other : Nat) : Bool := (m &&& other) == other

/-- ContainsAny: some bit set in other is set in m. -/
def containsAny (m other : Nat) : Bool := (m &&& other) != 0

/-- ContainsNone: no bit set in other is set in m. -/
def containsNone (m other : Nat) : Bool := (m &&& other) == 0

/-- IsEmpty: no bit is set (mask.Mask256.IsEmpty, used by storage.Locked). -/
def maskIsEmpty (m : Nat) : Bool := m == 0

/-! ## Set-algebra over the 256-bit domain, used to state the spec side -/

/-- Bitwise subset relation written as the spec's set algebra: every bit
index of the 256-bit domain that lies in other also lies in m. -/
def subsetBits (m other : Nat) : Bool :=
  (List.range maskWidth).all (fun b => !other.testBit b || m.testBit b)

/-- Bitwise intersection test written as the spec's set algebra: some bit
index of the 256-bit domain lies in both m and other. -/
def intersects (m other : Nat) : Bool :=
  (List.range maskWidth).any (fun b => m.testBit b && other.testBit b)

theorem containsAll_iff (m other : Nat) :
    containsAll m other = true ↔ ∀ i, other.testBit i = true → m.testBit i = true := by
  unfold containsAll
  rw [beq_iff_eq]
  constructor
  · intro h i hi
    have := congrArg (fun x => x.testBit i) h
    simp only [Nat.testBit_and, hi, Bool.and_true] at this
    exact this
  · intro h
    apply Nat.eq_of_testBit_eq
    intro i
    rw [Nat.testBit_and]
    cases hoi : other.testBit i with
    | false => simp
    | true => simp [h i hoi]

theorem subsetBits_iff (m other : Nat) (h : other < 2 ^ maskWidth) :
    subsetBits m other = true ↔ ∀ i, other.testBit i = true → m.testBit i = true := by
  unfold subsetBits
  rw [List.all_eq_true]
  constructor
  · intro hall i hi
    by_cases hlt : i < maskWidth
    · have := hall i (List.mem_range.mpr hlt)
      rw [hi] at this
      simpa using this
    · exfalso
      have hge : maskWidth ≤ i := Nat.le_of_not_lt hlt
      have : other < 2 ^ i :=
        Nat.lt_of_lt_of_le h (Nat.pow_le_pow_right (by norm_num) hge)
      rw [Nat.testBit_lt_two_pow this] at hi
      exact Bool.false_ne_true hi
  · intro hsub b _
    cases hob : other.testBit b with
    | false => simp
    | true => simp [hsub b hob]

theorem containsAll_eq_subsetBits (m other : Nat) (h : other < 2 ^ maskWidth) :
    containsAll m other = subsetBits m other := by
  rw [Bool.eq_iff_iff, containsAll_iff, subsetBits_iff m other h]

theorem containsAny_iff (m other : Nat) :
    containsAny m other = true ↔ ∃ i, m.testBit i = true ∧ other.testBit i = true := by
  unfold containsAny
  rw [bne_iff_ne]
  constructor
  · intro h
    obtain ⟨i, hi⟩ := Nat.ne_zero_implies_bit_true h
    rw [Nat.testBit_and, Bool.and_eq_true] at hi
    exact ⟨i, hi⟩
  · rintro ⟨i, h1, h2⟩ hzero
    have : (m &&& other).testBit i = true := by rw [Nat.testBit_and, h1, h2]; rfl
    rw [hzero] at this
    simp at this

theorem intersects_iff (m other : Nat) (h : other < 2 ^ maskWidth) :
    intersects m other = true ↔ ∃ i, m.testBit i = true ∧ other.testBit i = true := by
  unfold intersects
  rw [List.any_eq_true]
  constructor
  · rintro ⟨b, _, hb⟩
    rw [Bool.and_eq_true] at hb
    exact ⟨b, hb⟩
  · rintro ⟨i, h1, h2⟩
    refine ⟨i, List.mem_range.mpr ?_, by rw [h1, h2]; rfl⟩
    by_contra hlt
    have hge : maskWidth ≤ i := Nat.le_of_not_lt hlt
    have : other < 2 ^ i :=
      Nat.lt_of_lt_of_le h (Nat.pow_le_pow_right (by norm_num) hge)
    rw [Nat.testBit_lt_two_pow this] at h2
    exact Bool.false_ne_true h2

theorem containsAny_eq_intersects (m other : Nat) (h : other < 2 ^ maskWidth) :
    containsAny m other = intersects m other := by
  rw [Bool.eq_iff_iff, containsAny_iff, intersects_iff m other h]

theorem containsNone_eq_not_containsAny (m other : Nat) :
    containsNone m other = !containsAny m other := by
  unfold containsNone containsAny
  cases h : (m &&& other) == 0 with
  | false => simp [bne, h]
  | true => simp [bne, h]

theorem containsAny_zero (m : Nat) : containsAny m 0 = false := by
  unfold containsAny
  simp [Nat.and_zero]

/-! ## Schema (model of the external table.Schema: dense bit assignment) -/

/-- Register assigns the next dense bit to an unknown component and is
idempotent on known ones: the schema is the list of registered component
identities in registration order. -/
def register (sch : List Nat) (c : Nat) : List Nat :=
  if sch.contains c then sch else sch ++ [c]

/-- RowIndexFor returns the bit index assigned to a component: its position
in the registration order. -/
def rowIndexFor (sch : List Nat) (c : Nat) : Nat :=
  sch.findIdx (fun x => x == c)

/-- Node mask construction shared by every Evaluate variant: for each
component of the node, look up its bit in the schema and mark it. -/
def nodeMask (sch : List Nat) (comps : List Nat) : Nat :=
  comps.foldl (fun m c => mark m (rowIndexFor sch c)) 0

theorem mark_lt_two_pow {m b : Nat} (hm : m < 2 ^ maskWidth) (hb : b < maskWidth) :
    mark m b < 2 ^ maskWidth := by
  unfold mark
  rw [Nat.one_shiftLeft]
  exact Nat.or_lt_two_pow hm (Nat.pow_lt_pow_right (by norm_num) hb)

theorem nodeMask_fold_lt (sch : List Nat) (comps : List Nat) (m : Nat)
    (hm : m < 2 ^ maskWidth)
    (h : ∀ c ∈ comps, rowIndexFor sch c < maskWidth) :
    comps.foldl (fun m c => mark m (rowIndexFor sch c)) m < 2 ^ maskWidth := by
  induction comps generalizing m with
  | nil => simpa using hm
  | cons c cs ih =>
    simp only [List.foldl_cons]
    apply ih
    · exact mark_lt_two_pow hm (h c (by simp))
    · intro x hx
      exact h x (List.mem_cons_of_mem c hx)

theorem nodeMask_lt (sch : List Nat) (comps : List Nat)
    (h : ∀ c ∈ comps, rowIndexFor sch c < maskWidth) :
    nodeMask sch comps < 2 ^ maskWidth :=
  nodeMask_fold_lt sch comps 0 (Nat.pos_pow_of_pos maskWidth (by norm_num)) h

theorem nodeMask_nil (sch : List Nat) : nodeMask sch [] = 0 := rfl

/-! ## Query tree and the two source variants of compositeNode.Evaluate -/

/-- QueryOperation: the logical operations for query nodes (OpAnd, OpOr,
OpNot in the source). -/
inductive QOp : Type where
  | opAnd
  | opOr
  | opNot
deriving DecidableEq, Repr

mutual

/-- Composite query node: operation, component set (component identities,
resolved to bits through the storage schema at evaluation time), children. -/
inductive QNode : Type where
  | mk (op : QOp) (components : List Nat) (children : QChildren)
deriving DecidableEq, Repr

/-- Children list of a composite node. -/
inductive QChildren : Type where
  | nil
  | cons (q : QNode) (qs : QChildren)
deriving DecidableEq, Repr

end

/-- Emptiness test on a children list (len(n.children) == 0 in Go). -/
def QChildren.isNil : QChildren → Bool
  | .nil => true
  | .cons _ _ => false

mutual

/-- compositeNode.Evaluate, first source variant: AND prunes with
ContainsAll then requires every child; OR accepts on ContainsAny else any
child; NOT with no children is ContainsNone, with children it rejects when
the node has components the archetype intersects, else requires every child
to evaluate to false. -/
def QNode.evaluate (sch : List Nat) : QNode → Nat → Bool
  | .mk op comps children, m =>
    let n := nodeMask sch comps
    match op with
    | .opAnd =>
      if !containsAll m n then false else QChildren.evalAll sch children m
    | .opOr =>
      if containsAny m n then true else QChildren.evalAny sch children m
    | .opNot =>
      match children with
      | .nil => containsNone m n
      | .cons q qs =>
        if decide (0 < comps.length) && !containsNone m n then false
        else QChildren.evalNone sch (.cons q qs) m

/-- Conjunction over children (the AND loop: return false on the first
child that fails). -/
def QChildren.evalAll (sch : List Nat) : QChildren → Nat → Bool
  | .nil, _ => true
  | .cons q qs, m => QNode.evaluate sch q m && QChildren.evalAll sch qs m

/-- Disjunction over children (the OR loop: return true on the first child
that matches). -/
def QChildren.evalAny (sch : List Nat) : QChildren → Nat → Bool
  | .nil, _ => false
  | .cons q qs, m => QNode.evaluate sch q m || QChildren.evalAny sch qs m

/-- None-of over children (the NOT loop: return false on the first child
that matches). -/
def QChildren.evalNone (sch : List Nat) : QChildren → Nat → Bool
  | .nil, _ => true
  | .cons q qs, m => !QNode.evaluate sch q m && QChildren.evalNone sch qs m

end

mutual

/-- compositeNode.Evaluate, second source variant: identical for AND and
OR; for NOT it iterates the children first (returning false on a matching
child) and then returns the negation of ContainsAny, with no special case
for an empty component list. -/
def QNode.evaluateV2 (sch : List Nat) : QNode → Nat → Bool
  | .mk op comps children, m =>
    let n := nodeMask sch comps
    match op with
    | .opAnd =>
      if !containsAll m n then false else QChildren.evalAllV2 sch children m
    | .opOr =>
      if containsAny m n then true else QChildren.evalAnyV2 sch children m
    | .opNot =>
      match children with
      | .nil => containsNone m n
      | .cons q qs => QChildren.evalNoneV2 sch (.cons q qs) m && !containsAny m n

/-- Conjunction over children for the second variant. -/
def QChildren.evalAllV2 (sch : List Nat) : QChildren → Nat → Bool
  | .nil, _ => true
  | .cons q qs, m => QNode.evaluateV2 sch q m && QChildren.evalAllV2 sch qs m

/-- Disjunction over children for the second variant. -/
def QChildren.evalAnyV2 (sch : List Nat) : QChildren → Nat → Bool
  | .nil, _ => false
  | .cons q qs, m => QNode.evaluateV2 sch q m || QChildren.evalAnyV2 sch qs m

/-- None-of over children for the second variant. -/
def QChildren.evalNoneV2 (sch : List Nat) : QChildren → Nat → Bool
  | .nil, _ => true
  | .cons q qs, m => !QNode.evaluateV2 sch q m && QChildren.evalNoneV2 sch qs m

end

mutual

/-- Evaluation as the spec words it, over set algebra on the 256-bit
domain: AND returns false unless M is a superset of N, else the conjunction
over children (vacuously true); OR returns true when M intersects N, else
the disjunction over children (vacuously false); NOT with no children is
disjointness of M and N, and with children it returns false when the node
has components intersecting M and otherwise true iff every child evaluates
to false. -/
def specEvaluate (sch : List Nat) : QNode → Nat → Bool
  | .mk op comps children, m =>
    let n := nodeMask sch comps
    match op with
    | .opAnd =>
      if !subsetBits m n then false else specAll sch children m
    | .opOr =>
      if intersects m n then true else specAny sch children m
    | .opNot =>
      match children with
      | .nil => !intersects m n
      | .cons q qs =>
        if decide (0 < comps.length) && intersects m n then false
        else specNone sch (.cons q qs) m

/-- Spec-side conjunction over children. -/
def specAll (sch : List Nat) : QChildren → Nat → Bool
  | .nil, _ => true
  | .cons q qs, m => specEvaluate sch q m && specAll sch qs m

/-- Spec-side disjunction over children. -/
def specAny (sch : List Nat) : QChildren → Nat → Bool
  | .nil, _ => false
  | .cons q qs, m => specEvaluate sch q m || specAny sch qs m

/-- Spec-side none-of over children. -/
def specNone (sch : List Nat) : QChildren → Nat → Bool
  | .nil, _ => true
  | .cons q qs, m => !specEvaluate sch q m && specNone sch qs m

end

mutual

/-- Well-formedness of a query tree for a given schema: every component of
every node resolves to a bit inside the 256-bit schema bound. -/
def QNode.wf (sch : List Nat) : QNode → Bool
  | .mk _ comps children =>
    comps.all (fun c => decide (rowIndexFor sch c < maskWidth)) && QChildren.wf sch children

/-- Well-formedness of a children list. -/
def QChildren.wf (sch : List Nat) : QChildren → Bool
  | .nil => true
  | .cons q qs => QNode.wf sch q && QChildren.wf sch qs

end

theorem nodeMask_lt_of_wf {sch : List Nat} {comps : List Nat}
    (h : comps.all (fun c => decide (rowIndexFor sch c < maskWidth)) = true) :
    nodeMask sch comps < 2 ^ maskWidth := by
  apply nodeMask_lt
  intro c hc
  exact of_decide_eq_true (List.all_eq_true.mp h c hc)

theorem intersects_zero (m : Nat) : intersects m 0 = false := by
  unfold intersects
  simp

mutual

theorem evaluate_eq_spec (sch : List Nat) (q : QNode) (m : Nat)
    (hq : QNode.wf sch q = true) (hm : m < 2 ^ maskWidth) :
    QNode.evaluate sch q m = specEvaluate sch q m := by
  match q with
  | .mk op comps children =>
    rw [QNode.wf, Bool.and_eq_true] at hq
    have hn : nodeMask sch comps < 2 ^ maskWidth := nodeMask_lt_of_wf hq.1
    cases op with
    | opAnd =>
      simp only [QNode.evaluate, specEvaluate]
      rw [containsAll_eq_subsetBits m _ hn,
        evalAll_eq_spec sch children m hq.2 hm]
    | opOr =>
      simp only [QNode.evaluate, specEvaluate]
      rw [containsAny_eq_intersects m _ hn,
        evalAny_eq_spec sch children m hq.2 hm]
    | opNot =>
      cases children with
      | nil =>
        simp only [QNode.evaluate, specEvaluate]
        rw [containsNone_eq_not_containsAny, containsAny_eq_intersects m _ hn]
      | cons q1 qs =>
        simp only [QNode.evaluate, specEvaluate]
        rw [containsNone_eq_not_containsAny, containsAny_eq_intersects m _ hn,
          evalNone_eq_spec sch (.cons q1 qs) m hq.2 hm]
        simp only [Bool.not_not]

theorem evalAll_eq_spec (sch : List Nat) (l : QChildren) (m : Nat)
    (hl : QChildren.wf sch l = true) (hm : m < 2 ^ maskWidth) :
    QChildren.evalAll sch l m = specAll sch l m := by
  match l with
  | .nil => rfl
  | .cons q qs =>
    rw [QChildren.wf, Bool.and_eq_true] at hl
    simp only [QChildren.evalAll, specAll]
    rw [evaluate_eq_spec sch q m hl.1 hm, evalAll_eq_spec sch qs m hl.2 hm]

theorem evalAny_eq_spec (sch : List Nat) (l : QChildren) (m : Nat)
    (hl : QChildren.wf sch l = true) (hm : m < 2 ^ maskWidth) :
    QChildren.evalAny sch l m = specAny sch l m := by
  match l with
  | .nil => rfl
  | .cons q qs =>
    rw [QChildren.wf, Bool.and_eq_true] at hl
    simp only [QChildren.evalAny, specAny]
    rw [evaluate_eq_spec sch q m hl.1 hm, evalAny_eq_spec sch qs m hl.2 hm]

theorem evalNone_eq_spec (sch : List Nat) (l : QChildren) (m : Nat)
    (hl : QChildren.wf sch l = true) (hm : m < 2 ^ maskWidth) :
    QChildren.evalNone sch l m = specNone sch l m := by
  match l with
  | .nil => rfl
  | .cons q qs =>
    rw [QChildren.wf, Bool.and_eq_true] at hl
    simp only [QChildren.evalNone, specNone]
    rw [evaluate_eq_spec sch q m hl.1 hm, evalNone_eq_spec sch qs m hl.2 hm]

end

mutual

theorem evaluateV2_eq_spec (sch : List Nat) (q : QNode) (m : Nat)
    (hq : QNode.wf sch q = true) (hm : m < 2 ^ maskWidth) :
    QNode.evaluateV2 sch q m = specEvaluate sch q m := by
  match q with
  | .mk op comps children =>
    rw [QNode.wf, Bool.and_eq_true] at hq
    have hn : nodeMask sch comps < 2 ^ maskWidth := nodeMask_lt_of_wf hq.1
    cases op with
    | opAnd =>
      simp only [QNode.evaluateV2, specEvaluate]
      rw [containsAll_eq_subsetBits m _ hn,
        evalAllV2_eq_spec sch children m hq.2 hm]
    | opOr =>
      simp only [QNode.evaluateV2, specEvaluate]
      rw [containsAny_eq_intersects m _ hn,
        evalAnyV2_eq_spec sch children m hq.2 hm]
    | opNot =>
      cases children with
      | nil =>
        simp only [QNode.evaluateV2, specEvaluate]
        rw [containsNone_eq_not_containsAny, containsAny_eq_intersects m _ hn]
      | cons q1 qs =>
        simp only [QNode.evaluateV2, specEvaluate]
        rw [containsAny_eq_intersects m _ hn,
          evalNoneV2_eq_spec sch (.cons q1 qs) m hq.2 hm]
        cases comps with
        | nil =>
          rw [nodeMask_nil, intersects_zero]
          simp
        | cons c cs =>
          cases hI : intersects m (nodeMask sch (c :: cs)) <;> simp [hI]

theorem evalAllV2_eq_spec (sch : List Nat) (l : QChildren) (m : Nat)
    (hl : QChildren.wf sch l = true) (hm : m < 2 ^ maskWidth) :
    QChildren.evalAllV2 sch l m = specAll sch l m := by
  match l with
  | .nil => rfl
  | .cons q qs =>
    rw [QChildren.wf, Bool.and_eq_true] at hl
    simp only [QChildren.evalAllV2, specAll]
    rw [evaluateV2_eq_spec sch q m hl.1 hm, evalAllV2_eq_spec sch qs m hl.2 hm]

theorem evalAnyV2_eq_spec (sch : List Nat) (l : QChildren) (m : Nat)
    (hl : QChildren.wf sch l = true) (hm : m < 2 ^ maskWidth) :
    QChildren.evalAnyV2 sch l m = specAny sch l m := by
  match l with
  | .nil => rfl
  | .cons q qs =>
    rw [QChildren.wf, Bool.and_eq_true] at hl
    simp only [QChildren.evalAnyV2, specAny]
    rw [evaluateV2_eq_spec sch q m hl.1 hm, evalAnyV2_eq_spec sch qs m hl.2 hm]

theorem evalNoneV2_eq_spec (sch : List Nat) (l : QChildren) (m : Nat)
    (hl : QChildren.wf sch l = true) (hm : m < 2 ^ maskWidth) :
    QChildren.evalNoneV2 sch l m = specNone sch l m := by
  match l with
  | .nil => rfl
  | .cons q qs =>
    rw [QChildren.wf, Bool.and_eq_true] at hl
    simp only [QChildren.evalNoneV2, specNone]
    rw [evaluateV2_eq_spec sch q m hl.1 hm, evalNoneV2_eq_spec sch qs m hl.2 hm]

end

/-- C1: for every query node with operation AND, OR, or NOT and every
archetype mask M (both variants of compositeNode.Evaluate in the source),
Evaluate follows the spec's set-algebra rules: AND returns false if M does
not contain all of the node's component bits and otherwise the conjunction
over children (vacuously true); OR returns true if M intersects the node's
component bits and otherwise the disjunction over children (vacuously
false); NOT with no children returns true iff M is disjoint from the node's
bits, and NOT with children returns false if the node has components
intersecting M and otherwise true iff every child evaluates to false. -/
theorem C1_compositeNode_evaluate_follows_spec (sch : List Nat) (q : QNode) (m : Nat)
    (hq : QNode.wf sch q = true) (hm : m < 2 ^ maskWidth) :
    QNode.evaluate sch q m = specEvaluate sch q m ∧
    QNode.evaluateV2 sch q m = specEvaluate sch q m :=
  ⟨evaluate_eq_spec sch q m hq hm, evaluateV2_eq_spec sch q m hq hm⟩

/-- Sample schema for the C1 witness: components 10 and 20 with bits 0, 1. -/
def c1Schema : List Nat := [10, 20]

/-- Sample query for the C1 witness: Not([10], And([20])). -/
def c1Node : QNode := .mk .opNot [10] (.cons (.mk .opAnd [20] .nil) .nil)

/-- Witness for C1: the hypotheses hold and the theorem applies at a
concrete schema, query tree, and archetype mask. -/
theorem C1_compositeNode_evaluate_follows_spec_witness :
    QNode.wf c1Schema c1Node = true ∧ (2 : Nat) < 2 ^ maskWidth ∧
    (QNode.evaluate c1Schema c1Node 2 = specEvaluate c1Schema c1Node 2 ∧
     QNode.evaluateV2 c1Schema c1Node 2 = specEvaluate c1Schema c1Node 2) :=
  ⟨by decide, by decide,
    C1_compositeNode_evaluate_follows_spec c1Schema c1Node 2 (by decide) (by decide)⟩

/-! ## Storage model

Archetypes carry the registry-assigned id, the table mask, the column
element types in caller order, and the table row count.  The entity
directory rows model the globalEntities slice: entry id, recycled count,
owning archetype, and the handle's component list. -/

/-- Error outcomes of storage operations.  internalPanic stands for a Go
runtime panic (for instance an out-of-range slice index). -/
inductive ErrB : Type where
  | lockedStorage
  | componentExists
  | componentNotFound
  | internalPanic
deriving DecidableEq, Repr

/-- Archetype record: id, mask, column element types, table row count. -/
structure ArcheRec : Type where
  id : Nat
  mask : Nat
  comps : List Nat
  length : Nat
deriving DecidableEq, Repr

/-- Entity directory row: entry id (0 in a zeroed slot), recycled count,
current archetype, and the handle's component list. -/
structure EntityRow : Type where
  entryId : Nat
  recycled : Nat
  archeId : Nat
  comps : List Nat
deriving DecidableEq, Repr

/-- Zero value of an entity directory row. -/
def zeroRow : EntityRow := {entryId := 0, recycled := 0, archeId := 0, comps := []}

/-- Bit-lock storage variant: lock mask, schema, archetype registry
(nextID, dense slice, mask-to-id map), entry allocator, entity directory. -/
structure StorageB : Type where
  locks : Nat
  schema : List Nat
  nextID : Nat
  asSlice : List ArcheRec
  maskToID : List (Nat × Nat)
  nextEntry : Nat
  dir : List EntityRow
deriving DecidableEq, Repr

/-- Fresh bit-lock storage as newStorage builds it. -/
def freshStorageB : StorageB :=
  {locks := 0, schema := [], nextID := 1, asSlice := [], maskToID := [],
   nextEntry := 1, dir := []}

/-- The registration loop shared by NewEntities and NewOrExistingArchetype:
register each component, look up its bit, and mark it in the mask. -/
def registerAndMask (sch : List Nat) (comps : List Nat) : List Nat × Nat :=
  comps.foldl (fun p c =>
    let s := register p.1 c
    (s, mark p.2 (rowIndexFor s c))) (sch, 0)

/-- Length bump of the archetype holding new rows (Table.NewEntries). -/
def bumpArcheLength (l : List ArcheRec) (aid n : Nat) : List ArcheRec :=
  l.map (fun a => if a.id == aid then {a with length := a.length + n} else a)

/-- Length decrement of an archetype losing one row (delete or transfer). -/
def decArcheLength (l : List ArcheRec) (aid : Nat) : List ArcheRec :=
  l.map (fun a => if a.id == aid then {a with length := a.length - 1} else a)

/-- storage.NewOrExistingArchetype of the bit-lock variant: compute the
mask with registration, return the existing archetype on a map hit, else
create one, append it, record the mask-to-id entry, and advance nextID. -/
def newOrExistingArchetypeB (s : StorageB) (comps : List Nat) :
    StorageB × Option ArcheRec :=
  let p := registerAndMask s.schema comps
  let s1 := {s with schema := p.1}
  match s1.maskToID.lookup p.2 with
  | some id => (s1, s1.asSlice.get? (id - 1))
  | none =>
    let created : ArcheRec := {id := s1.nextID, mask := p.2, comps := comps, length := 0}
    ({s1 with asSlice := s1.asSlice ++ [created],
              maskToID := s1.maskToID ++ [(p.2, created.id)],
              nextID := s1.nextID + 1}, some created)

/-- storage.NewEntities of the bit-lock variant: reject when locked,
resolve or create the archetype, append n rows to its table, allocate
entry ids, and append the handles to the entity directory. -/
def newEntitiesB (s : StorageB) (n : Nat) (comps : List Nat) :
    StorageB × Except ErrB (List Nat) :=
  if !maskIsEmpty s.locks then (s, .error .lockedStorage) else
  let p := registerAndMask s.schema comps
  let s1 := {s with schema := p.1}
  let found : StorageB × Option ArcheRec :=
    match s1.maskToID.lookup p.2 with
    | some id => (s1, s1.asSlice.get? (id - 1))
    | none => newOrExistingArchetypeB s1 comps
  match found with
  | (s2, none) => (s2, .error .internalPanic)
  | (s2, some arche) =>
    let ids := (List.range n).map (fun i => s2.nextEntry + i)
    let rows := ids.map (fun eid =>
      ({entryId := eid, recycled := 0, archeId := arche.id, comps := comps} : EntityRow))
    ({s2 with asSlice := bumpArcheLength s2.asSlice arche.id n,
              nextEntry := s2.nextEntry + n,
              dir := s2.dir ++ rows}, .ok ids)

/-- storage.DestroyEntities of the bit-lock variant: reject when locked,
delete each entity's row from its table, then zero the directory slot of
each destroyed id (no effect for an out-of-range id, as in the source). -/
def destroyEntitiesB (s : StorageB) (ids : List Nat) : StorageB × Option ErrB :=
  if !maskIsEmpty s.locks then (s, some .lockedStorage) else
  let s1 := ids.foldl (fun st eid =>
    match st.dir.get? (eid - 1) with
    | some row => {st with asSlice := decArcheLength st.asSlice row.archeId}
    | none => st) s
  let s2 := ids.foldl (fun st eid => {st with dir := st.dir.set (eid - 1) zeroRow}) s1
  (s2, none)

/-- Bool-lock storage variant (plain locked flag). -/
structure StorageA : Type where
  locked : Bool
  schema : List Nat
  nextID : Nat
  asSlice : List ArcheRec
  maskToID : List (Nat × Nat)
  nextEntry : Nat
  dir : List EntityRow
deriving DecidableEq, Repr

/-- Fresh bool-lock storage as its newStorage builds it. -/
def freshStorageA : StorageA :=
  {locked := false, schema := [], nextID := 1, asSlice := [], maskToID := [],
   nextEntry := 1, dir := []}

/-- storage.NewEntities of the bool-lock variant: reject when locked; on a
map miss it creates a new archetype, appends it to the slice and advances
nextID, but does not record the mask-to-id map entry (exactly as in the
source); then appends n rows and the handles to the entity directory. -/
def newEntitiesA (s : StorageA) (n : Nat) (comps : List Nat) :
    StorageA × Except ErrB (List Nat) :=
  if s.locked then (s, .error .lockedStorage) else
  let p := registerAndMask s.schema comps
  let s1 := {s with schema := p.1}
  let found : StorageA × Option ArcheRec :=
    match s1.maskToID.lookup p.2 with
    | some id => (s1, s1.asSlice.get? (id - 1))
    | none =>
      let created : ArcheRec := {id := s1.nextID, mask := p.2, comps := comps, length := 0}
      ({s1 with asSlice := s1.asSlice ++ [created], nextID := s1.nextID + 1},
       some created)
  match found with
  | (s2, none) => (s2, .error .internalPanic)
  | (s2, some arche) =>
    let ids := (List.range n).map (fun i => s2.nextEntry + i)
    let rows := ids.map (fun eid =>
      ({entryId := eid, recycled := 0, archeId := arche.id, comps := comps} : EntityRow))
    ({s2 with asSlice := bumpArcheLength s2.asSlice arche.id n,
              nextEntry := s2.nextEntry + n,
              dir := s2.dir ++ rows}, .ok ids)

/-- storage.DestroyEntities of the bool-lock variant: reject when locked,
delete each entity's row from its table, then zero the directory slot of
each destroyed id. -/
def destroyEntitiesA (s : StorageA) (ids : List Nat) : StorageA × Option ErrB :=
  if s.locked then (s, some .lockedStorage) else
  let s1 := ids.foldl (fun st eid =>
    match st.dir.get? (eid - 1) with
    | some row => {st with asSlice := decArcheLength st.asSlice row.archeId}
    | none => st) s
  let s2 := ids.foldl (fun st eid => {st with dir := st.dir.set (eid - 1) zeroRow}) s1
  (s2, none)

/-- First NewEntities(1, [7]) call on a fresh bool-lock storage. -/
def c2State1 : StorageA := (newEntitiesA freshStorageA 1 [7]).1

/-- Second NewEntities(1, [7]) call with the same component set. -/
def c2State2 : StorageA := (newEntitiesA c2State1 1 [7]).1

/-- C2: the bool-lock variant's NewEntities never records the mask-to-id
map entry on the create path, so two calls with the same component set
create two archetypes with equal masks and distinct ids, and the two
entities land in different archetypes; this contradicts the claimed
registry law (mask equality implies archetype identity) at this input. -/
theorem C2_newEntities_duplicate_archetypes_on_equal_masks :
    c2State2.asSlice.length = 2 ∧
    c2State2.asSlice.map ArcheRec.mask = [1, 1] ∧
    c2State2.asSlice.map ArcheRec.id = [1, 2] ∧
    c2State1.dir.map EntityRow.archeId = [1] ∧
    c2State2.dir.map EntityRow.archeId = [1, 2] ∧
    c2State2.maskToID = [] := by decide

/-- Contrast lemma: at the same input, the bit-lock variant's NewEntities
deduplicates by mask: the second call reuses archetype 1. -/
theorem newEntitiesB_deduplicates_equal_masks :
    ((newEntitiesB (newEntitiesB freshStorageB 1 [7]).1 1 [7]).1.asSlice.map
      ArcheRec.id = [1]) ∧
    ((newEntitiesB (newEntitiesB freshStorageB 1 [7]).1 1 [7]).1.dir.map
      EntityRow.archeId = [1, 1]) := by decide

/-- C5: while the storage is locked (any lock bit held in the bit-lock
variant, the flag set in the bool-lock variant), the direct mutating
operations NewEntities and DestroyEntities return the storage-locked error
and leave the whole storage state (archetypes, masks, lengths, entity
directory) unchanged. -/
theorem C5_locked_storage_rejects_direct_mutation (s : StorageB) (n : Nat)
    (comps : List Nat) (ids : List Nat) (h : s.locks ≠ 0)
    (sA : StorageA) (nA : Nat) (compsA idsA : List Nat) (hA : sA.locked = true) :
    newEntitiesB s n comps = (s, .error .lockedStorage) ∧
    destroyEntitiesB s ids = (s, some .lockedStorage) ∧
    newEntitiesA sA nA compsA = (sA, .error .lockedStorage) ∧
    destroyEntitiesA sA idsA = (sA, some .lockedStorage) := by
  have hb : (!maskIsEmpty s.locks) = true := by
    simp [maskIsEmpty, h]
  refine ⟨?_, ?_, ?_, ?_⟩
  · rw [newEntitiesB, if_pos hb]
  · rw [destroyEntitiesB, if_pos hb]
  · rw [newEntitiesA, if_pos hA]
  · rw [destroyEntitiesA, if_pos hA]

/-- Witness for C5 at a concrete locked storage of each variant. -/
theorem C5_locked_storage_rejects_direct_mutation_witness :
    ({freshStorageB with locks := 2}.locks ≠ 0) ∧
    ({freshStorageA with locked := true}.locked = true) ∧
    (newEntitiesB {freshStorageB with locks := 2} 3 [4] =
      ({freshStorageB with locks := 2}, .error .lockedStorage) ∧
     destroyEntitiesB {freshStorageB with locks := 2} [1] =
      ({freshStorageB with locks := 2}, some .lockedStorage) ∧
     newEntitiesA {freshStorageA with locked := true} 3 [4] =
      ({freshStorageA with locked := true}, .error .lockedStorage) ∧
     destroyEntitiesA {freshStorageA with locked := true} [1] =
      ({freshStorageA with locked := true}, some .lockedStorage)) :=
  ⟨by decide, by decide,
   C5_locked_storage_rejects_direct_mutation {freshStorageB with locks := 2} 3 [4] [1]
     (by decide) {freshStorageA with locked := true} 3 [4] [1] (by decide)⟩

/-- storage.tableFor of the bit-lock variant: build the mask with plain
RowIndexFor lookups (no registration), look it up; on a miss create an
archetype, append it and advance nextID without recording the mask-to-id
entry, set id to the advanced nextID and the decrement to 2; finally index
the slice at id minus the decrement. -/
def tableForB (s : StorageB) (comps : List Nat) : StorageB × Option ArcheRec :=
  let m := comps.foldl (fun acc c => mark acc (rowIndexFor s.schema c)) 0
  match s.maskToID.lookup m with
  | some id => (s, s.asSlice.get? (id - 1))
  | none =>
    let created : ArcheRec := {id := s.nextID, mask := m, comps := comps, length := 0}
    let s1 := {s with asSlice := s.asSlice ++ [created], nextID := s.nextID + 1}
    (s1, s1.asSlice.get? (s1.nextID - 2))

/-- Storage with component 5 already registered, for the tableFor runs. -/
def c6Storage0 : StorageB := {freshStorageB with schema := [5]}

/-- First tableFor([5]) call. -/
def c6Run1 : StorageB × Option ArcheRec := tableForB c6Storage0 [5]

/-- Second tableFor([5]) call on the resulting storage. -/
def c6Run2 : StorageB × Option ArcheRec := tableForB c6Run1.1 [5]

/-- C6: tableFor's create path computes the right slice index for the
archetype it just created, but records no mask-to-id entry, so a second
call with the same component set misses the map again, creates a second
archetype with the same mask, and returns a different table; the claimed
get-or-create contract (same table, at most one new archetype) fails at
this input. -/
theorem C6_tableFor_creates_duplicate_archetype :
    c6Run1.2 = some {id := 1, mask := 1, comps := [5], length := 0} ∧
    c6Run2.2 = some {id := 2, mask := 1, comps := [5], length := 0} ∧
    c6Run1.2 ≠ c6Run2.2 ∧
    c6Run2.1.asSlice.length = 2 ∧
    c6Run2.1.asSlice.map ArcheRec.mask = [1, 1] := by decide

/-! ## Cursor -/

/-- Cursor.Initialize of the bit-lock variant walks the archetype slice in
id order and keeps those the query matches. -/
def matchedArchetypes (s : StorageB) (q : QNode) : List ArcheRec :=
  s.asSlice.filter (fun a => QNode.evaluateV2 s.schema q a.mask)

/-- Cursor.TotalMatched: the sum of table lengths over the matched
archetypes (after initialization). -/
def totalMatched (s : StorageB) (q : QNode) : Nat :=
  (matchedArchetypes s q).foldl (fun t a => t + a.length) 0

theorem foldl_add_length (l : List ArcheRec) (t : Nat) :
    l.foldl (fun t a => t + a.length) t = t + (l.map ArcheRec.length).sum := by
  induction l generalizing t with
  | nil => simp
  | cons a rest ih =>
    simp only [List.foldl_cons, List.map_cons, List.sum_cons]
    rw [ih]
    omega

/-- C9: TotalMatched equals the sum of Length over exactly the archetypes
whose masks satisfy the query in the spec's set-algebra sense. -/
theorem C9_totalMatched_sums_matching_archetypes (s : StorageB) (q : QNode)
    (hq : QNode.wf s.schema q = true)
    (ha : ∀ a ∈ s.asSlice, a.mask < 2 ^ maskWidth) :
    totalMatched s q =
      ((s.asSlice.filter (fun a => specEvaluate s.schema q a.mask)).map
        ArcheRec.length).sum := by
  unfold totalMatched matchedArchetypes
  rw [foldl_add_length, Nat.zero_add]
  congr 1
  apply congrArg
  apply List.filter_congr
  intro a haa
  exact evaluateV2_eq_spec s.schema q a.mask hq (ha a haa)

/-- Scenario storage: 5 entities with components 1 and 2. -/
def scenarioS1 : StorageB := (newEntitiesB freshStorageB 5 [1, 2]).1

/-- Scenario storage: then 10 entities with component 1 only. -/
def scenarioS2 : StorageB := (newEntitiesB scenarioS1 10 [1]).1

/-- Scenario storage: then 15 entities with component 2 only. -/
def scenarioS3 : StorageB := (newEntitiesB scenarioS2 15 [2]).1

/-- Query And(1, 2) over the scenario components. -/
def qAnd12 : QNode := .mk .opAnd [1, 2] .nil

/-- Witness for C9 at the S1 scenario: with 5 entities of composition
P and V, 10 of P, and 15 of V, the And(P, V) cursor matches exactly 5. -/
theorem C9_totalMatched_sums_matching_archetypes_witness :
    QNode.wf scenarioS3.schema qAnd12 = true ∧
    (∀ a ∈ scenarioS3.asSlice, a.mask < 2 ^ maskWidth) ∧
    totalMatched scenarioS3 qAnd12 =
      ((scenarioS3.asSlice.filter
        (fun a => specEvaluate scenarioS3.schema qAnd12 a.mask)).map
        ArcheRec.length).sum ∧
    totalMatched scenarioS3 qAnd12 = 5 :=
  ⟨by decide, by decide,
   C9_totalMatched_sums_matching_archetypes scenarioS3 qAnd12 (by decide) (by decide),
   by decide⟩

/-! ## Entity lookup on the storage (storage.Entity) -/

/-- Outcome of a Go call that may panic instead of returning. -/
inductive GoCall (A : Type) : Type where
  | ret (v : A)
  | panicked
deriving DecidableEq, Repr

/-- storage.Entity: return the directory slot at position id minus one
together with a nil error, with Go's bounds-checked slice indexing (an
out-of-range index panics). -/
def storageEntity (dir : List EntityRow) (id : Int) : GoCall (EntityRow × Option ErrB) :=
  if h : 0 ≤ id - 1 ∧ (id - 1).toNat < dir.length then
    .ret (dir.get ⟨(id - 1).toNat, h.2⟩, none)
  else .panicked

/-- C10: storage.Entity performs no range or liveness validation: whenever
it returns, the error component is nil; an in-range id returns the directory
slot; and an id at most 0 or above the directory length panics on the
slice index rather than returning an error. -/
theorem C10_storage_entity_never_validates (dir : List EntityRow) (id : Int) :
    (∀ e err, storageEntity dir id = .ret (e, err) → err = none) ∧
    (1 ≤ id → id ≤ (dir.length : Int) → ∃ e, storageEntity dir id = .ret (e, none)) ∧
    ((id ≤ 0 ∨ (dir.length : Int) < id) → storageEntity dir id = .panicked) := by
  refine ⟨?_, ?_, ?_⟩
  · intro e err heq
    unfold storageEntity at heq
    split at heq
    · rw [GoCall.ret.injEq, Prod.mk.injEq] at heq
      exact heq.2.symm
    · exact absurd heq (by simp)
  · intro h1 h2
    have hcond : 0 ≤ id - 1 ∧ (id - 1).toNat < dir.length := by omega
    unfold storageEntity
    rw [dif_pos hcond]
    exact ⟨_, rfl⟩
  · intro hc
    have hcond : ¬(0 ≤ id - 1 ∧ (id - 1).toNat < dir.length) := by omega
    unfold storageEntity
    rw [dif_neg hcond]

/-- Witness for C10: on a one-slot directory, id 1 returns the slot with a
nil error and id 0 panics. -/
theorem C10_storage_entity_never_validates_witness :
    (∃ e, storageEntity [zeroRow] 1 = .ret (e, none)) ∧
    storageEntity [zeroRow] 0 = .panicked :=
  ⟨(C10_storage_entity_never_validates [zeroRow] 1).2.1 (by decide) (by decide),
   (C10_storage_entity_never_validates [zeroRow] 0).2.2 (by decide)⟩

/-! ## Entity validity -/

/-- entity.Valid as the source defines it: the entry id is nonzero.  The
generation (recycled count) is not consulted. -/
def entityValid (e : EntityRow) : Bool := e.entryId != 0

/-- Validity as the claim words it: EntryID nonzero and the handle's
generation snapshot equal to the live Entry's current generation (written
against the spec sentence, to be compared with the source definition). -/
def claimValid (liveRecycled : Nat) (e : EntityRow) : Bool :=
  e.entryId != 0 && (e.recycled == liveRecycled)

/-- Counterexample to C8: a handle with nonzero id whose generation
snapshot 0 disagrees with the live generation 1 (a recycled id) is still
Valid in the source, while the claimed equivalence demands false. -/
theorem C8_valid_ignores_generation_counterexample :
    entityValid {entryId := 1, recycled := 0, archeId := 0, comps := []} = true ∧
    claimValid 1 {entryId := 1, recycled := 0, archeId := 0, comps := []} = false := by
  decide

/-- C8 amended: Valid returns true iff the entry id is nonzero; the
generation snapshot is not consulted (generation checks happen instead in
the queued operations' Apply methods via Recycled comparisons). -/
theorem C8_valid_iff_nonzero_id (e : EntityRow) :
    entityValid e = true ↔ e.entryId ≠ 0 := by
  unfold entityValid
  exact bne_iff_ne

/-! ## AddComponent -/

/-- Row transfer bookkeeping for the bool-lock variant: the origin table
loses the row, the destination gains it, and the handle now points at the
destination with its column set. -/
def transferRowA (s : StorageA) (eid : Nat) (row : EntityRow) (originId : Nat)
    (dest : ArcheRec) : StorageA :=
  {s with asSlice := bumpArcheLength (decArcheLength s.asSlice originId) dest.id 1,
          dir := s.dir.set (eid - 1) {row with archeId := dest.id, comps := dest.comps}}

/-- entity.AddComponent of the bool-lock variant: locked storage is a
typed error; a component already present in the current table is the
ComponentExists error; otherwise mark the bit into the origin mask, get or
create the destination archetype (recording the mask-to-id entry), and
transfer the row. -/
def addComponentA (s : StorageA) (eid : Nat) (c : Nat) : StorageA × Option ErrB :=
  if s.locked then (s, some .lockedStorage) else
  match s.dir.get? (eid - 1) with
  | none => (s, some .internalPanic)
  | some row =>
    match s.asSlice.find? (fun a => a.id == row.archeId) with
    | none => (s, some .internalPanic)
    | some origin =>
      if origin.comps.contains c then (s, some .componentExists)
      else
        let destMask := mark origin.mask (rowIndexFor s.schema c)
        match s.maskToID.lookup destMask with
        | some id =>
          match s.asSlice.get? (id - 1) with
          | none => (s, some .internalPanic)
          | some dest => (transferRowA s eid row origin.id dest, none)
        | none =>
          let created : ArcheRec :=
            {id := s.nextID, mask := destMask, comps := origin.comps ++ [c], length := 0}
          let s1 := {s with asSlice := s.asSlice ++ [created],
                            maskToID := s.maskToID ++ [(destMask, s.nextID)],
                            nextID := s.nextID + 1}
          (transferRowA s1 eid row origin.id created, none)

/-- entity.AddComponent of the bit-lock variant: locked storage is an
error; a component already present in the current table (or already in the
handle's component list) returns nil without any further effect; otherwise
append the component, resolve the destination archetype, and transfer. -/
def addComponentB (s : StorageB) (eid : Nat) (c : Nat) : StorageB × Option ErrB :=
  if !maskIsEmpty s.locks then (s, some .lockedStorage) else
  match s.dir.get? (eid - 1) with
  | none => (s, some .internalPanic)
  | some row =>
    match s.asSlice.find? (fun a => a.id == row.archeId) with
    | none => (s, some .internalPanic)
    | some origin =>
      if origin.comps.contains c then (s, none)
      else if row.comps.contains c then (s, none)
      else
        let comps2 := row.comps ++ [c]
        match newOrExistingArchetypeB s comps2 with
        | (s1, none) => (s1, some .internalPanic)
        | (s1, some dest) =>
          ({s1 with
              asSlice := bumpArcheLength (decArcheLength s1.asSlice origin.id) dest.id 1,
              dir := s1.dir.set (eid - 1) {row with archeId := dest.id, comps := comps2}},
           none)

/-- One entity with component 7 in the bool-lock storage. -/
def c7StateA : StorageA := (newEntitiesA freshStorageA 1 [7]).1

/-- Counterexample to C7: in the bool-lock variant, adding a component the
entity's table already contains returns the ComponentExists error rather
than success (the state is still left unchanged). -/
theorem C7_addComponent_present_returns_error_counterexample :
    addComponentA c7StateA 1 7 = (c7StateA, some ErrB.componentExists) := by decide

/-- C7 amended: with the storage unlocked and the entity's current table
already containing the component, AddComponent leaves the storage fully
unchanged in both variants; the bit-lock variant reports success (nil
error) while the bool-lock variant returns the ComponentExists error. -/
theorem C7_addComponent_existing_component_is_noop
    (sB : StorageB) (eidB cB : Nat) (rowB : EntityRow) (originB : ArcheRec)
    (hlockB : sB.locks = 0)
    (hrowB : sB.dir.get? (eidB - 1) = some rowB)
    (hfindB : sB.asSlice.find? (fun a => a.id == rowB.archeId) = some originB)
    (hcB : originB.comps.contains cB = true)
    (sA : StorageA) (eidA cA : Nat) (rowA : EntityRow) (originA : ArcheRec)
    (hlockA : sA.locked = false)
    (hrowA : sA.dir.get? (eidA - 1) = some rowA)
    (hfindA : sA.asSlice.find? (fun a => a.id == rowA.archeId) = some originA)
    (hcA : originA.comps.contains cA = true) :
    addComponentB sB eidB cB = (sB, none) ∧
    addComponentA sA eidA cA = (sA, some .componentExists) := by
  constructor
  · rw [addComponentB]
    have : (!maskIsEmpty sB.locks) = false := by simp [maskIsEmpty, hlockB]
    rw [this]
    simp only [Bool.false_eq_true, if_false, hrowB, hfindB, hcB, if_true]
  · rw [addComponentA, hlockA]
    simp only [Bool.false_eq_true, if_false, hrowA, hfindA, hcA, if_true]

/-- One entity with component 7 in the bit-lock storage. -/
def c7StateB : StorageB := (newEntitiesB freshStorageB 1 [7]).1

/-- Witness for the amended C7 at concrete storages holding one entity
with component 7 in each variant. -/
theorem C7_addComponent_existing_component_is_noop_witness :
    addComponentB c7StateB 1 7 = (c7StateB, none) ∧
    addComponentA c7StateA 1 7 = (c7StateA, some .componentExists) :=
  C7_addComponent_existing_component_is_noop c7StateB 1 7
    {entryId := 1, recycled := 0, archeId := 1, comps := [7]}
    {id := 1, mask := 1, comps := [7], length := 1}
    (by decide) (by decide) (by decide) (by decide)
    c7StateA 1 7
    {entryId := 1, recycled := 0, archeId := 1, comps := [7]}
    {id := 1, mask := 1, comps := [7], length := 1}
    (by decide) (by decide) (by decide) (by decide)

/-! ## Deferred-operation queue of the bool-lock variant (opQueue) -/

/-- operationType constant opCreate. -/
def opCreate : Int := 0

/-- operationType constant opDestroy. -/
def opDestroy : Int := 1

/-- operationType constant opAddComponent. -/
def opAddComponent : Int := 2

/-- operationType constant opRemoveComponent. -/
def opRemoveComponent : Int := 3

/-- Queued operation record (struct operation): type tag, create amount,
component list, entry ids, table. -/
structure OpRec : Type where
  typ : Int
  amount : Nat
  comps : List Nat
  entryIDs : List Nat
  table : Nat
deriving DecidableEq, Repr

/-- Key identifying an entity in the queue maps (struct opKey). -/
abbrev OpKey : Type := Nat × Nat

/-- The three-phase queue with its bookkeeping maps (struct opQueue). -/
structure OpQueueA : Type where
  createOps : List OpRec
  componentOps : List OpRec
  destroyOps : List OpRec
  pendingDestroy : List OpKey
  pendingMods : List (OpKey × Nat)
deriving DecidableEq, Repr

/-- Empty queue as newOpQueue builds it. -/
def emptyOpQueue : OpQueueA :=
  {createOps := [], componentOps := [], destroyOps := [], pendingDestroy := [],
   pendingMods := []}

/-- Per-id body of EnqueueDestroy's loop: skip ids already pending
destruction; otherwise record the key, mark any pending component
operation of that entity as a no-op (type set to minus one) and drop its
pendingMods entry, and collect the id for the destroy record. -/
def enqueueDestroyStep (tbl : Nat) (acc : OpQueueA × List Nat) (id : Nat) :
    OpQueueA × List Nat :=
  let q := acc.1
  let key : OpKey := (tbl, id)
  if q.pendingDestroy.contains key then acc
  else
    let q1 := {q with pendingDestroy := q.pendingDestroy ++ [key]}
    match q1.pendingMods.lookup key with
    | some idx =>
      let cops :=
        match q1.componentOps.get? idx with
        | some op => q1.componentOps.set idx {op with typ := -1}
        | none => q1.componentOps
      ({q1 with componentOps := cops,
                pendingMods := q1.pendingMods.filter (fun p => !(p.1 == key))},
       acc.2 ++ [id])
    | none => (q1, acc.2 ++ [id])

/-- opQueue.EnqueueDestroy: process each id, then append one destroy
record holding the surviving ids (none when every id was already queued). -/
def enqueueDestroyA (q : OpQueueA) (tbl : Nat) (ids : List Nat) : OpQueueA :=
  let r := ids.foldl (enqueueDestroyStep tbl) (q, [])
  if r.2.isEmpty then r.1
  else {r.1 with destroyOps := r.1.destroyOps ++
    [{typ := opDestroy, amount := 0, comps := [], entryIDs := r.2, table := tbl}]}

/-- opQueue.EnqueueComponentOp: drop the operation when the entity is
pending destruction; overwrite the existing queued operation in place when
one exists (latest intent only); otherwise record the index and append a
fresh operation. -/
def enqueueComponentOpA (q : OpQueueA) (typ : Int) (tbl id comp : Nat) : OpQueueA :=
  let key : OpKey := (tbl, id)
  if q.pendingDestroy.contains key then q
  else
    match q.pendingMods.lookup key with
    | some idx =>
      match q.componentOps.get? idx with
      | some op =>
        {q with componentOps := q.componentOps.set idx {op with comps := [comp], typ := typ}}
      | none => q
    | none =>
      {q with pendingMods := q.pendingMods ++ [(key, q.componentOps.length)],
              componentOps := q.componentOps ++
                [{typ := typ, amount := 0, comps := [comp], entryIDs := [id], table := tbl}]}

/-- storage.EnqueueNewEntities while locked: append a create record. -/
def enqueueCreateA (q : OpQueueA) (amount : Nat) (comps : List Nat) : OpQueueA :=
  {q with createOps := q.createOps ++
    [{typ := opCreate, amount := amount, comps := comps, entryIDs := [], table := 0}]}

/-- An operation the drain's component phase actually applies (the switch
matches only opAddComponent and opRemoveComponent; the minus-one tag of a
superseded operation falls through). -/
def isComponentApplied (op : OpRec) : Bool :=
  op.typ == opAddComponent || op.typ == opRemoveComponent

/-- storage.processOperationQueue application order: all create records,
then the still-applicable component records, then all destroy records. -/
def drainTraceA (q : OpQueueA) : List OpRec :=
  q.createOps ++ q.componentOps.filter isComponentApplied ++ q.destroyOps

theorem lookup_filter_ne_none (l : List (OpKey × Nat)) (k : OpKey) :
    (l.filter (fun p => !(p.1 == k))).lookup k = none := by
  induction l with
  | nil => rfl
  | cons p t ih =>
    rw [List.filter_cons]
    cases hpk : p.1 == k with
    | true => simpa [hpk] using ih
    | false =>
      have hkp : (k == p.1) = false := by
        rw [beq_eq_false_iff_ne] at hpk ⊢
        exact fun h => hpk h.symm
      simp only [hpk, Bool.not_false, if_true, List.lookup, hkp]
      exact ih

theorem enqueueDestroyA_single (q : OpQueueA) (tbl id : Nat) (idx : Nat) (op : OpRec)
    (hfresh : q.pendingDestroy.contains (tbl, id) = false)
    (hidx : q.pendingMods.lookup (tbl, id) = some idx)
    (hop : q.componentOps.get? idx = some op) :
    enqueueDestroyA q tbl [id] =
      {q with pendingDestroy := q.pendingDestroy ++ [(tbl, id)],
              componentOps := q.componentOps.set idx {op with typ := -1},
              pendingMods := q.pendingMods.filter (fun p => !(p.1 == (tbl, id))),
              destroyOps := q.destroyOps ++
                [{typ := opDestroy, amount := 0, comps := [], entryIDs := [id],
                  table := tbl}]} := by
  unfold enqueueDestroyA enqueueDestroyStep
  simp only [List.foldl_cons, List.foldl_nil, hfresh, Bool.false_eq_true, if_false,
    hidx, hop, List.nil_append, List.isEmpty_cons]

/-- C4: coalescing discipline of the deferred queue.  (a) Enqueuing a
destroy for an entity with a pending component operation marks that
operation as a no-op (type minus one, skipped by the drain), removes its
pendingMods entry, and appends the destroy record.  (b) Enqueuing a second
component operation for the same entity overwrites the queued operation in
place with the latest intent.  (c) Enqueuing a component operation for an
entity already pending destruction leaves the queue unchanged. -/
theorem C4_destroy_supersedes_and_mods_coalesce
    (q : OpQueueA) (tbl id comp : Nat) (typ2 : Int) (idx : Nat) (op : OpRec)
    (hfresh : q.pendingDestroy.contains (tbl, id) = false)
    (hidx : q.pendingMods.lookup (tbl, id) = some idx)
    (hop : q.componentOps.get? idx = some op)
    (q2 : OpQueueA) (tbl2 id2 comp2 : Nat) (typ3 : Int)
    (hdead : q2.pendingDestroy.contains (tbl2, id2) = true) :
    ((enqueueDestroyA q tbl [id]).componentOps.get? idx = some {op with typ := -1} ∧
     (enqueueDestroyA q tbl [id]).pendingMods.lookup (tbl, id) = none ∧
     isComponentApplied {op with typ := -1} = false ∧
     (enqueueDestroyA q tbl [id]).destroyOps = q.destroyOps ++
       [{typ := opDestroy, amount := 0, comps := [], entryIDs := [id], table := tbl}]) ∧
    ((enqueueComponentOpA q typ2 tbl id comp).componentOps =
       q.componentOps.set idx {op with comps := [comp], typ := typ2} ∧
     (enqueueComponentOpA q typ2 tbl id comp).componentOps.length =
       q.componentOps.length) ∧
    enqueueComponentOpA q2 typ3 tbl2 id2 comp2 = q2 := by
  have hlt : idx < q.componentOps.length := by
    cases hq : q.componentOps.get? idx with
    | none => rw [hq] at hop; exact absurd hop (by simp)
    | some o => exact (List.get?_eq_some.mp hq).1
  refine ⟨?_, ?_, ?_⟩
  · rw [enqueueDestroyA_single q tbl id idx op hfresh hidx hop]
    refine ⟨?_, ?_, ?_, rfl⟩
    · exact List.get?_set_eq_of_lt _ hlt
    · exact lookup_filter_ne_none q.pendingMods (tbl, id)
    · rfl
  · unfold enqueueComponentOpA
    simp only [hfresh, Bool.false_eq_true, if_false, hidx, hop]
    refine ⟨trivial, ?_⟩
    rw [List.length_set]
  · unfold enqueueComponentOpA
    simp only [hdead, if_true]

/-- Queue holding one pending add-component operation for entity (1, 1). -/
def c4Queue : OpQueueA := enqueueComponentOpA emptyOpQueue opAddComponent 1 1 5

/-- Queue holding one pending destroy for entity (1, 2). -/
def c4Dead : OpQueueA := enqueueDestroyA emptyOpQueue 1 [2]

/-- The operation originally queued for entity (1, 1) in the C4 witness. -/
def c4OrigOp : OpRec :=
  {typ := opAddComponent, amount := 0, comps := [5], entryIDs := [1], table := 1}

/-- That operation after a destroy marks it as a no-op. -/
def c4MarkedOp : OpRec := {c4OrigOp with typ := -1}

/-- That operation after a remove-component overwrite. -/
def c4NewOp : OpRec := {c4OrigOp with comps := [6], typ := opRemoveComponent}

/-- The destroy record the C4 witness expects. -/
def c4DestroyRec : OpRec :=
  {typ := opDestroy, amount := 0, comps := [], entryIDs := [1], table := 1}

/-- Witness for C4 at concrete queues. -/
theorem C4_destroy_supersedes_and_mods_coalesce_witness :
    ((enqueueDestroyA c4Queue 1 [1]).componentOps.get? 0 = some c4MarkedOp ∧
     (enqueueDestroyA c4Queue 1 [1]).pendingMods.lookup (1, 1) = none ∧
     isComponentApplied c4MarkedOp = false ∧
     (enqueueDestroyA c4Queue 1 [1]).destroyOps = c4Queue.destroyOps ++ [c4DestroyRec]) ∧
    ((enqueueComponentOpA c4Queue opRemoveComponent 1 1 6).componentOps =
       c4Queue.componentOps.set 0 c4NewOp ∧
     (enqueueComponentOpA c4Queue opRemoveComponent 1 1 6).componentOps.length =
       c4Queue.componentOps.length) ∧
    enqueueComponentOpA c4Dead opAddComponent 1 2 7 = c4Dead :=
  C4_destroy_supersedes_and_mods_coalesce c4Queue 1 1 6 opRemoveComponent 0 c4OrigOp
    (by decide) (by decide) (by decide)
    c4Dead 1 2 7 opAddComponent (by decide)

/-! ## Deferred-operation queue of the bit-lock variant -/

/-- Deferred operation of the bit-lock variant's single queue (the
EntityOperation implementations of operation_queue). -/
inductive OpB : Type where
  | createEntities (count : Nat) (comps : List Nat)
  | destroyEntity (eid : Nat) (recycled : Nat)
  | addComponent (eid : Nat) (comp : Nat)
  | removeComponent (eid : Nat) (comp : Nat)
deriving DecidableEq, Repr

/-- Lock mask and deferred queue of the bit-lock storage. -/
structure LockQueueB : Type where
  locks : Nat
  queue : List OpB
deriving DecidableEq, Repr

/-- storage.AddLock: set one lock bit. -/
def addLockB (s : LockQueueB) (bit : Nat) : LockQueueB :=
  {s with locks := mark s.locks bit}

/-- entityOperationsQueue.Enqueue: append the operation. -/
def enqueueB (s : LockQueueB) (op : OpB) : LockQueueB :=
  {s with queue := s.queue ++ [op]}

/-- storage.RemoveLock: clear the bit; when no lock bits remain, ProcessAll
applies every queued operation in insertion order and clears the queue.
The second component is the list of operations applied, in order. -/
def removeLockB (s : LockQueueB) (bit : Nat) : LockQueueB × List OpB :=
  let locks2 := unmark s.locks bit
  if maskIsEmpty locks2 then ({locks := locks2, queue := []}, s.queue)
  else ({s with locks := locks2}, [])

/-- Phase a deferred operation belongs to under the claimed drain order:
entity creations first, component modifications second, destroys last. -/
def phaseOfB : OpB → Nat
  | .createEntities _ _ => 0
  | .addComponent _ _ => 1
  | .removeComponent _ _ => 1
  | .destroyEntity _ _ => 2

/-- Nondecreasing check over a phase list. -/
def phasesOrdered : List Nat → Bool
  | [] => true
  | [_] => true
  | a :: b :: t => decide (a ≤ b) && phasesOrdered (b :: t)

/-- Locked state (lock bit 0 held) with an empty queue. -/
def c3Lock0 : LockQueueB := addLockB {locks := 0, queue := []} 0

/-- A destroy enqueued while locked. -/
def c3Lock1 : LockQueueB := enqueueB c3Lock0 (.destroyEntity 1 0)

/-- Then a create enqueued while locked. -/
def c3Lock2 : LockQueueB := enqueueB c3Lock1 (.createEntities 2 [9])

/-- The drain triggered by clearing the last lock bit. -/
def c3Drain : LockQueueB × List OpB := removeLockB c3Lock2 0

/-- Counterexample to C3: in the bit-lock variant, a destroy enqueued
before a create is applied before it at drain time: the queue drains in
pure insertion order, and the claimed create-then-modify-then-destroy
phase ordering fails. -/
theorem C3_drain_insertion_order_counterexample :
    c3Drain.2 = [.destroyEntity 1 0, .createEntities 2 [9]] ∧
    phasesOrdered (c3Drain.2.map phaseOfB) = false := by decide

/-- Enqueue events arriving at the bool-lock storage while it is locked:
entity creations, component add/remove operations, destroys. -/
inductive EvA : Type where
  | create (amount : Nat) (comps : List Nat)
  | compOp (isAdd : Bool) (tbl : Nat) (id : Nat) (comp : Nat)
  | destroy (tbl : Nat) (ids : List Nat)
deriving DecidableEq, Repr

/-- Routing of one locked-mode call into the queue, as the Enqueue methods
do it. -/
def stepA (q : OpQueueA) : EvA → OpQueueA
  | .create n comps => enqueueCreateA q n comps
  | .compOp isAdd tbl id comp =>
    enqueueComponentOpA q (if isAdd then opAddComponent else opRemoveComponent) tbl id comp
  | .destroy tbl ids => enqueueDestroyA q tbl ids

/-- Queue built by a sequence of locked-mode calls from the empty queue. -/
def buildQA (evs : List EvA) : OpQueueA := evs.foldl stepA emptyOpQueue

/-- The create record a create event contributes. -/
def createProj : EvA → Option OpRec
  | .create n comps =>
    some {typ := opCreate, amount := n, comps := comps, entryIDs := [], table := 0}
  | _ => none

/-- Phase of a queued record under the claimed drain order. -/
def phaseOfRec (op : OpRec) : Nat :=
  if op.typ == opCreate then 0 else if op.typ == opDestroy then 2 else 1

/-- The identifying fields of a queued component record, preserved by
overwrites and no-op marking. -/
def opKeyOf (op : OpRec) : Nat × List Nat := (op.table, op.entryIDs)

theorem set_get?_self (l : List α) (i : Nat) (a : α) (h : l.get? i = some a) :
    l.set i a = l := by
  induction l generalizing i with
  | nil => simp at h
  | cons x t ih =>
    cases i with
    | zero =>
      rw [List.get?] at h
      cases h
      rfl
    | succ n =>
      rw [List.get?] at h
      rw [List.set]
      rw [ih n h]

theorem map_set_of_key_eq (l : List OpRec) (i : Nat) (a b : OpRec)
    (h : l.get? i = some b) (hf : opKeyOf a = opKeyOf b) :
    (l.set i a).map opKeyOf = l.map opKeyOf := by
  rw [List.map_set]
  have : (l.map opKeyOf).get? i = some (opKeyOf b) := by
    rw [List.get?_map, h]
    rfl
  rw [hf, set_get?_self _ i _ this]

theorem createOps_enqueueComponentOpA (q : OpQueueA) (typ : Int) (tbl id comp : Nat) :
    (enqueueComponentOpA q typ tbl id comp).createOps = q.createOps := by
  unfold enqueueComponentOpA
  dsimp only
  repeat' split
  all_goals rfl

theorem createOps_enqueueDestroyStep (tbl : Nat) (acc : OpQueueA × List Nat) (id : Nat) :
    ((enqueueDestroyStep tbl acc id).1).createOps = acc.1.createOps := by
  unfold enqueueDestroyStep
  dsimp only
  repeat' split
  all_goals rfl

theorem createOps_destroyFold (tbl : Nat) (ids : List Nat) (acc : OpQueueA × List Nat) :
    ((ids.foldl (enqueueDestroyStep tbl) acc).1).createOps = acc.1.createOps := by
  induction ids generalizing acc with
  | nil => rfl
  | cons id rest ih =>
    rw [List.foldl_cons, ih, createOps_enqueueDestroyStep]

theorem createOps_enqueueDestroyA (q : OpQueueA) (tbl : Nat) (ids : List Nat) :
    (enqueueDestroyA q tbl ids).createOps = q.createOps := by
  unfold enqueueDestroyA
  dsimp only
  split
  · exact createOps_destroyFold tbl ids (q, [])
  · exact createOps_destroyFold tbl ids (q, [])

theorem destroyOps_enqueueComponentOpA (q : OpQueueA) (typ : Int) (tbl id comp : Nat) :
    (enqueueComponentOpA q typ tbl id comp).destroyOps = q.destroyOps := by
  unfold enqueueComponentOpA
  dsimp only
  repeat' split
  all_goals rfl

theorem destroyOps_enqueueDestroyStep (tbl : Nat) (acc : OpQueueA × List Nat) (id : Nat) :
    ((enqueueDestroyStep tbl acc id).1).destroyOps = acc.1.destroyOps := by
  unfold enqueueDestroyStep
  dsimp only
  repeat' split
  all_goals rfl

theorem destroyOps_destroyFold (tbl : Nat) (ids : List Nat) (acc : OpQueueA × List Nat) :
    ((ids.foldl (enqueueDestroyStep tbl) acc).1).destroyOps = acc.1.destroyOps := by
  induction ids generalizing acc with
  | nil => rfl
  | cons id rest ih =>
    rw [List.foldl_cons, ih, destroyOps_enqueueDestroyStep]

theorem destroyOps_enqueueDestroyA (q : OpQueueA) (tbl : Nat) (ids : List Nat) :
    ∃ t, (enqueueDestroyA q tbl ids).destroyOps = q.destroyOps ++ t ∧
      t.all (fun op => op.typ == opDestroy) = true := by
  unfold enqueueDestroyA
  dsimp only
  split
  · refine ⟨[], ?_, rfl⟩
    rw [destroyOps_destroyFold, List.append_nil]
  · refine ⟨[{typ := opDestroy, amount := 0, comps := [], entryIDs := (ids.foldl (enqueueDestroyStep tbl) (q, [])).2, table := tbl}], ?_, rfl⟩
    rw [destroyOps_destroyFold]

theorem keys_enqueueComponentOpA (q : OpQueueA) (typ : Int) (tbl id comp : Nat) :
    ∃ t, (enqueueComponentOpA q typ tbl id comp).componentOps.map opKeyOf =
      q.componentOps.map opKeyOf ++ t := by
  unfold enqueueComponentOpA
  dsimp only
  split
  · exact ⟨[], by simp⟩
  · split
    · split
      · rename_i op hget
        refine ⟨[], ?_⟩
        rw [List.append_nil]
        exact map_set_of_key_eq _ _ _ _ hget rfl
      · exact ⟨[], by simp⟩
    · refine ⟨[(tbl, [id])], ?_⟩
      rw [List.map_append]
      rfl

theorem keys_enqueueDestroyStep (tbl : Nat) (acc : OpQueueA × List Nat) (id : Nat) :
    ((enqueueDestroyStep tbl acc id).1).componentOps.map opKeyOf =
      acc.1.componentOps.map opKeyOf := by
  unfold enqueueDestroyStep
  dsimp only
  split
  · rfl
  · split
    · split
      · rename_i op hget
        exact map_set_of_key_eq _ _ _ _ hget rfl
      · rfl
    · rfl

theorem keys_destroyFold (tbl : Nat) (ids : List Nat) (acc : OpQueueA × List Nat) :
    ((ids.foldl (enqueueDestroyStep tbl) acc).1).componentOps.map opKeyOf =
      acc.1.componentOps.map opKeyOf := by
  induction ids generalizing acc with
  | nil => rfl
  | cons id rest ih =>
    rw [List.foldl_cons, ih, keys_enqueueDestroyStep]

theorem keys_enqueueDestroyA (q : OpQueueA) (tbl : Nat) (ids : List Nat) :
    (enqueueDestroyA q tbl ids).componentOps.map opKeyOf =
      q.componentOps.map opKeyOf := by
  unfold enqueueDestroyA
  dsimp only
  split
  · exact keys_destroyFold tbl ids (q, [])
  · exact keys_destroyFold tbl ids (q, [])

theorem keys_stepA (q : OpQueueA) (e : EvA) :
    ∃ t, (stepA q e).componentOps.map opKeyOf = q.componentOps.map opKeyOf ++ t := by
  cases e with
  | create n comps => exact ⟨[], by simp [stepA, enqueueCreateA]⟩
  | compOp isAdd tbl id comp => exact keys_enqueueComponentOpA q _ tbl id comp
  | destroy tbl ids => exact ⟨[], by simp [stepA, keys_enqueueDestroyA]⟩

theorem destroyOps_stepA (q : OpQueueA) (e : EvA) :
    ∃ t, (stepA q e).destroyOps = q.destroyOps ++ t ∧
      t.all (fun op => op.typ == opDestroy) = true := by
  cases e with
  | create n comps => exact ⟨[], by simp [stepA, enqueueCreateA], rfl⟩
  | compOp isAdd tbl id comp =>
    exact ⟨[], by simp [stepA, destroyOps_enqueueComponentOpA], rfl⟩
  | destroy tbl ids => exact destroyOps_enqueueDestroyA q tbl ids

theorem buildQA_concat (evs : List EvA) (e : EvA) :
    buildQA (evs ++ [e]) = stepA (buildQA evs) e := by
  unfold buildQA
  rw [List.foldl_append]
  rfl

theorem destroyOps_all_buildQA (evs : List EvA) :
    (buildQA evs).destroyOps.all (fun op => op.typ == opDestroy) = true := by
  induction evs using List.reverseRecOn with
  | nil => rfl
  | append_singleton evs e ih =>
    obtain ⟨t, ht, hall⟩ := destroyOps_stepA (buildQA evs) e
    rw [buildQA_concat, ht, List.all_append, ih, hall]
    rfl

theorem foldl_createOps (evs : List EvA) (q : OpQueueA) :
    (evs.foldl stepA q).createOps = q.createOps ++ evs.filterMap createProj := by
  induction evs generalizing q with
  | nil => simp
  | cons e t ih =>
    rw [List.foldl_cons, ih]
    cases e with
    | create n comps =>
      simp [stepA, enqueueCreateA, createProj]
    | compOp isAdd tbl id comp =>
      simp [stepA, createOps_enqueueComponentOpA, createProj]
    | destroy tbl ids =>
      simp [stepA, createOps_enqueueDestroyA, createProj]

theorem createOps_buildQA (evs : List EvA) :
    (buildQA evs).createOps = evs.filterMap createProj := by
  unfold buildQA
  rw [foldl_createOps]
  rfl

theorem createOps_all_buildQA (evs : List EvA) :
    (buildQA evs).createOps.all (fun op => op.typ == opCreate) = true := by
  rw [createOps_buildQA, List.all_eq_true]
  intro op hop
  obtain ⟨e, he, hpe⟩ := List.mem_filterMap.mp hop
  cases e with
  | create n comps =>
    rw [createProj] at hpe
    cases hpe
    rfl
  | compOp isAdd tbl id comp =>
    have hnone : createProj (EvA.compOp isAdd tbl id comp) = none := rfl
    rw [hnone] at hpe
    cases hpe
  | destroy tbl ids =>
    have hnone : createProj (EvA.destroy tbl ids) = none := rfl
    rw [hnone] at hpe
    cases hpe

theorem phasesOrdered_const (v : Nat) (l : List Nat) (h : ∀ x ∈ l, x = v) :
    phasesOrdered l = true := by
  induction l with
  | nil => rfl
  | cons a t ih =>
    cases t with
    | nil => rfl
    | cons b t2 =>
      rw [phasesOrdered]
      have ha := h a (by simp)
      have hb := h b (by simp)
      have ht : phasesOrdered (b :: t2) = true :=
        ih (fun x hx => h x (List.mem_cons_of_mem a hx))
      rw [ht, ha, hb]
      simp

theorem phasesOrdered_append (l1 l2 : List Nat) (h1 : phasesOrdered l1 = true)
    (h2 : phasesOrdered l2 = true) (hle : ∀ x ∈ l1, ∀ y ∈ l2, x ≤ y) :
    phasesOrdered (l1 ++ l2) = true := by
  induction l1 with
  | nil => simpa using h2
  | cons a t ih =>
    cases t with
    | nil =>
      cases l2 with
      | nil => rfl
      | cons b t2 =>
        have hab : a ≤ b := hle a (by simp) b (by simp)
        rw [List.cons_append, List.nil_append, phasesOrdered, h2]
        simp [hab]
    | cons c t' =>
      rw [List.cons_append, List.cons_append, phasesOrdered]
      rw [phasesOrdered] at h1
      rw [Bool.and_eq_true] at h1
      have hrec : phasesOrdered ((c :: t') ++ l2) = true :=
        ih h1.2 (fun x hx y hy => hle x (List.mem_cons_of_mem a hx) y hy)
      rw [List.cons_append] at hrec
      rw [hrec, h1.1]
      simp

theorem drainTraceA_phases (evs : List EvA) :
    phasesOrdered ((drainTraceA (buildQA evs)).map phaseOfRec) = true := by
  unfold drainTraceA
  rw [List.map_append, List.map_append]
  have hc : ∀ x ∈ (buildQA evs).createOps.map phaseOfRec, x = 0 := by
    intro x hx
    obtain ⟨op, hop, hpx⟩ := List.mem_map.mp hx
    have hall := createOps_all_buildQA evs
    rw [List.all_eq_true] at hall
    have htyp := hall op hop
    rw [beq_iff_eq] at htyp
    rw [← hpx, phaseOfRec, htyp]
    simp
  have hm : ∀ x ∈ ((buildQA evs).componentOps.filter isComponentApplied).map phaseOfRec,
      x = 1 := by
    intro x hx
    obtain ⟨op, hop, hpx⟩ := List.mem_map.mp hx
    have happ := List.of_mem_filter hop
    rw [isComponentApplied, Bool.or_eq_true] at happ
    rw [← hpx, phaseOfRec]
    cases happ with
    | inl h =>
      rw [beq_iff_eq] at h
      rw [h]
      decide
    | inr h =>
      rw [beq_iff_eq] at h
      rw [h]
      decide
  have hd : ∀ x ∈ (buildQA evs).destroyOps.map phaseOfRec, x = 2 := by
    intro x hx
    obtain ⟨op, hop, hpx⟩ := List.mem_map.mp hx
    have hall := destroyOps_all_buildQA evs
    rw [List.all_eq_true] at hall
    have htyp := hall op hop
    rw [beq_iff_eq] at htyp
    rw [← hpx, phaseOfRec, htyp]
    decide
  apply phasesOrdered_append
  · apply phasesOrdered_append
    · exact phasesOrdered_const 0 _ hc
    · exact phasesOrdered_const 1 _ hm
    · intro x hx y hy
      rw [hc x hx, hm y hy]
      omega
  · exact phasesOrdered_const 2 _ hd
  · intro x hx y hy
    rw [hd y hy]
    rw [List.mem_append] at hx
    cases hx with
    | inl h =>
      rw [hc x h]
      omega
    | inr h =>
      rw [hm x h]
      omega

/-- C3 amended: in the bool-lock variant, the queue built by any sequence
of locked-mode calls drains in three phases (creates, then applicable
component operations, then destroys, with nondecreasing phases); the
create phase replays exactly the create calls in insertion order; one more
call only ever extends the destroy list and the component-slot list at the
end (insertion order within those phases is preserved, existing slots
being updated in place).  In the bit-lock variant, enqueue appends to a
single queue and RemoveLock drains exactly when the cleared bit was the
last one held, applying the whole queue in insertion order (not in three
phases). -/
theorem C3_drain_order_amended (evs : List EvA) (e : EvA)
    (s1 : LockQueueB) (bit1 : Nat) (s2 : LockQueueB) (bit2 : Nat) (op : OpB)
    (hdrain : maskIsEmpty (unmark s1.locks bit1) = true)
    (hheld : maskIsEmpty (unmark s2.locks bit2) = false) :
    phasesOrdered ((drainTraceA (buildQA evs)).map phaseOfRec) = true ∧
    (buildQA evs).createOps = evs.filterMap createProj ∧
    (∃ t, (buildQA (evs ++ [e])).destroyOps = (buildQA evs).destroyOps ++ t) ∧
    (∃ t, (buildQA (evs ++ [e])).componentOps.map opKeyOf =
      (buildQA evs).componentOps.map opKeyOf ++ t) ∧
    (enqueueB s1 op).queue = s1.queue ++ [op] ∧
    removeLockB s1 bit1 = ({locks := unmark s1.locks bit1, queue := []}, s1.queue) ∧
    removeLockB s2 bit2 = ({s2 with locks := unmark s2.locks bit2}, []) := by
  refine ⟨drainTraceA_phases evs, createOps_buildQA evs, ?_, ?_, rfl, ?_, ?_⟩
  · obtain ⟨t, ht, _⟩ := destroyOps_stepA (buildQA evs) e
    exact ⟨t, by rw [buildQA_concat, ht]⟩
  · obtain ⟨t, ht⟩ := keys_stepA (buildQA evs) e
    exact ⟨t, by rw [buildQA_concat, ht]⟩
  · unfold removeLockB
    dsimp only
    rw [if_pos hdrain]
  · unfold removeLockB
    dsimp only
    rw [if_neg (by rw [hheld]; exact Bool.false_ne_true)]

/-- Concrete locked-mode call sequence for the C3 witness. -/
def c3Evs : List EvA := [.destroy 1 [4], .create 2 [8], .compOp true 1 4 9]

/-- One further call for the C3 witness. -/
def c3Ev1 : EvA := .compOp false 1 6 2

/-- Bit-lock state holding the last lock bit, with one queued operation. -/
def c3S1 : LockQueueB := {locks := 1, queue := [.createEntities 1 [3]]}

/-- Bit-lock state still holding another lock bit after the clear. -/
def c3S2 : LockQueueB := {locks := 3, queue := []}

/-- Witness for the amended C3 at concrete inputs. -/
theorem C3_drain_order_amended_witness :
    phasesOrdered ((drainTraceA (buildQA c3Evs)).map phaseOfRec) = true ∧
    (buildQA c3Evs).createOps = c3Evs.filterMap createProj ∧
    (∃ t, (buildQA (c3Evs ++ [c3Ev1])).destroyOps = (buildQA c3Evs).destroyOps ++ t) ∧
    (∃ t, (buildQA (c3Evs ++ [c3Ev1])).componentOps.map opKeyOf =
      (buildQA c3Evs).componentOps.map opKeyOf ++ t) ∧
    (enqueueB c3S1 (.destroyEntity 2 0)).queue = c3S1.queue ++ [.destroyEntity 2 0] ∧
    removeLockB c3S1 0 = ({locks := unmark c3S1.locks 0, queue := []}, c3S1.queue) ∧
    removeLockB c3S2 0 = ({c3S2 with locks := unmark c3S2.locks 0}, []) :=
  C3_drain_order_amended c3Evs c3Ev1 c3S1 0 c3S2 0 (.destroyEntity 2 0)
    (by decide) (by decide)
